import Mathlib

/-!
Verification of the data-cleaning and persistence core of the repository
(`Laboratorio_1/env/data_handler.py`, used by `main.py`).

The embedding models a pandas `DataFrame` as a list of column names together
with a list of rows (lists of cell values aligned with the columns).  Cell
values are one of integer, floating point (modelled by `ℚ`), string, boolean,
timestamp or the missing value.  The missing value `Value.vNull` models the
float `NaN` / `NaT` that the pandas readers and coercions of this repository
produce for absent data.
-/

/-- A cell value of a tabular dataset.  `vNull` is the missing value (pandas
`NaN` / `NaT` as produced by the repository's readers and coercions). -/
inductive Value : Type
  | vInt (n : Int)
  | vFloat (q : ℚ)
  | vStr (s : String)
  | vBool (b : Bool)
  | vTime (t : Int)
  | vNull
deriving DecidableEq, Repr

/-- One row of a dataset: the cell values, aligned with the column list. -/
abbrev Row := List Value

/-- In-memory tabular dataset (the shape of a pandas `DataFrame`): named
columns shared by all rows. -/
structure Dataset where
  cols : List String
  rows : List Row
deriving DecidableEq, Repr

/-- The target semantic types accepted by the validator's `data_types`
dictionary in the source (`int`, `float`, `datetime`, `str`, `bool`). -/
inductive PyType : Type
  | int
  | float
  | str
  | bool
  | datetime
deriving DecidableEq, Repr

/-- The `DataValidator` configuration: `required_fields` and `data_types`
(source `data_handler.py` lines 34-40).  A dictionary is modelled as an
association list preserving insertion order. -/
structure ValidatorConfig where
  required_fields : List String
  data_types : List (String × PyType)
deriving DecidableEq, Repr

/-- `v == vNull`, the per-cell test used by `dropna`. -/
def isNullV : Value → Bool
  | Value.vNull => true
  | _ => false

/-- Index of a column name in the column list (first occurrence). -/
def colIdx : List String → String → Option Nat
  | [], _ => none
  | x :: xs, c => if x = c then some 0 else (colIdx xs c).map (fun i => i + 1)

/-- The value a row holds in a named column (missing column or short row
reads as the missing value). -/
def getVal (cols : List String) (r : Row) (c : String) : Value :=
  match colIdx cols c with
  | some i => r.getD i Value.vNull
  | none => Value.vNull

/-- A row passes `dropna(subset)`: none of the subset columns is null. -/
def rowOk (cols : List String) (subset : List String) (r : Row) : Bool :=
  subset.all (fun c => !(isNullV (getVal cols r c)))

/-- `df.dropna(subset=subset)` on the rows: keep exactly the rows that are
non-null in every subset column. -/
def dropnaRows (cols : List String) (subset : List String) (rows : List Row) : List Row :=
  rows.filter (fun r => rowOk cols subset r)

/-- Worker for `drop_duplicates`: `seen` holds the rows already kept; a row
equal to an earlier kept row is removed. -/
def dropDupsAux : List Row → List Row → List Row
  | _, [] => []
  | seen, r :: rs =>
    if r ∈ seen then dropDupsAux seen rs
    else r :: dropDupsAux (r :: seen) rs

/-- `df.drop_duplicates()` (source line 123): remove every row that is
field-for-field identical to an earlier row, keeping the first occurrence. -/
def remove_duplicates (rows : List Row) : List Row :=
  dropDupsAux [] rows

/-- Reference characterisation of first-occurrence deduplication: walk the
list with the full prefix of already scanned rows and keep a row exactly when
it differs from every earlier row. -/
def firstOccurrences : List Row → List Row → List Row
  | _, [] => []
  | pre, r :: rs =>
    if r ∈ pre then firstOccurrences (pre ++ [r]) rs
    else r :: firstOccurrences (pre ++ [r]) rs

/-- Decimal value of a digit string, accumulator style. -/
def digitsVal (acc : Nat) : List Char → Nat
  | [] => acc
  | c :: cs => digitsVal (acc * 10 + (c.toNat - 48)) cs

/-- Parse a non-empty all-digit character list as a natural number. -/
def parseNatChars (cs : List Char) : Option Nat :=
  if cs ≠ [] && cs.all Char.isDigit then some (digitsVal 0 cs) else none

/-- Parse an optionally `-`-signed digit string as an integer. -/
def parseIntChars : List Char → Option Int
  | '-' :: cs => (parseNatChars cs).map (fun n => -(n : Int))
  | cs => (parseNatChars cs).map (fun n => (n : Int))

/-- Whether a character list starts with a minus sign. -/
def isNegChars : List Char → Bool
  | '-' :: _ => true
  | _ => false

/-- Parse the two halves of a decimal string `a.b` (with optional leading
minus on `a`) as a rational; the grammar is the integer/decimal fragment of
the pandas numeric parser, scientific notation abstracted away. -/
def parseFracChars (a b : List Char) : Option ℚ :=
  if b ≠ [] && b.all Char.isDigit then
    match parseIntChars a, parseNatChars b with
    | some n, some m =>
      let base : Nat := 10 ^ b.length
      let mag : Int := (n.natAbs : Int) * (base : Int) + (m : Int)
      some (mkRat (if isNegChars a then -mag else mag) base)
    | _, _ => none
  else none

/-- Numeric parse of one string under `pd.to_numeric(·, errors='coerce')`:
a whole-number string parses as an integer, a decimal string as a float,
anything else becomes the missing value. -/
def strToNumericVal (s : String) : Value :=
  let cs := s.data
  match parseIntChars cs with
  | some n => Value.vInt n
  | none =>
    match cs.span (fun c => !(c == '.')) with
    | (a, _ :: b) =>
      match parseFracChars a b with
      | some q => Value.vFloat q
      | none => Value.vNull
    | (_, []) => Value.vNull

/-- Elementwise behaviour of `pd.to_numeric(col, errors='coerce')`
(source lines 87 and 89): numbers pass through, numeric strings parse,
booleans cast to 0/1, anything unconvertible becomes the missing value. -/
def toNumeric : Value → Value
  | Value.vInt n => Value.vInt n
  | Value.vFloat q => Value.vFloat q
  | Value.vBool b => Value.vInt (if b then 1 else 0)
  | Value.vStr s => strToNumericVal s
  | Value.vTime _ => Value.vNull
  | Value.vNull => Value.vNull

/-- A numeric value that is not a whole number (after `to_numeric`). -/
def isFractional : Value → Bool
  | Value.vFloat q => decide (q.den ≠ 1)
  | _ => false

/-- Elementwise `astype(pd.Int64Dtype())` on a column already known to hold
only whole numbers and missing values: whole floats become integers. -/
def numToInt : Value → Value
  | Value.vFloat q => if q.den = 1 then Value.vInt q.num else Value.vNull
  | v => v

/-- The integer coercion of source line 87,
`pd.to_numeric(col, errors='coerce').astype(pd.Int64Dtype())`.
`none` models the `TypeError` that `astype(pd.Int64Dtype())` raises when the
numeric column contains a fractional value (pandas refuses the unsafe cast);
the source catches it at line 97 and leaves the column unchanged. -/
def coerceIntColumn (vs : List Value) : Option (List Value) :=
  let nums := vs.map toNumeric
  if nums.any isFractional then none else some (nums.map numToInt)

/-- Split a character list at every occurrence of a separator character. -/
def splitOnChar (sep : Char) : List Char → List (List Char)
  | [] => [[]]
  | c :: cs =>
    if c == sep then [] :: splitOnChar sep cs
    else
      match splitOnChar sep cs with
      | [] => [[c]]
      | g :: gs => (c :: g) :: gs

/-- Simplified calendar grammar for `pd.to_datetime(·, errors='coerce')` on
strings: an ISO `YYYY-MM-DD` date, encoded as `y*10000 + m*100 + d`. -/
def parseDateStr (s : String) : Option Int :=
  match splitOnChar '-' s.data with
  | [y, m, d] =>
    if y.length = 4 && m.length = 2 && d.length = 2 then
      match parseNatChars y, parseNatChars m, parseNatChars d with
      | some yn, some mn, some dn =>
        if 1 ≤ mn && mn ≤ 12 && 1 ≤ dn && dn ≤ 31 then
          some ((yn : Int) * 10000 + (mn : Int) * 100 + (dn : Int))
        else none
      | _, _, _ => none
    else none
  | _ => none

/-- Elementwise behaviour of `pd.to_datetime(col, errors='coerce')`
(source line 92): timestamps pass through, parseable strings and numbers
convert, everything else becomes the missing value `NaT`. -/
def toDatetime : Value → Value
  | Value.vTime t => Value.vTime t
  | Value.vStr s =>
    match parseDateStr s with
    | some t => Value.vTime t
    | none => Value.vNull
  | Value.vInt n => Value.vTime n
  | Value.vFloat q => Value.vTime q.floor
  | Value.vBool _ => Value.vNull
  | Value.vNull => Value.vNull

/-- Python truthiness, as applied elementwise by `astype(bool)` (source line
96).  Note `bool(float('nan'))` is `True` in Python, so the missing value
(`NaN`) casts to `true`, not `false`. -/
def pyTruthy : Value → Bool
  | Value.vInt n => n != 0
  | Value.vFloat q => q != 0
  | Value.vStr s => s != ""
  | Value.vBool b => b
  | Value.vTime _ => true
  | Value.vNull => true

/-- Elementwise `astype(bool)` (source line 96). -/
def astypeBool (v : Value) : Value :=
  Value.vBool (pyTruthy v)

/-- Python `str()` of a cell value, as applied elementwise by `astype(str)`
(source line 94).  The missing value `NaN` renders as the non-null text
`"nan"`; the decimal rendering of floats and timestamps is abstracted. -/
def pyStr : Value → String
  | Value.vInt n => toString n
  | Value.vFloat q => toString q.num ++ "." ++ toString q.den
  | Value.vStr s => s
  | Value.vBool b => if b then "True" else "False"
  | Value.vTime t => toString t
  | Value.vNull => "nan"

/-- Elementwise `astype(str)` (source line 94): every cell, the missing value
included, becomes a (non-null) string. -/
def astypeStr (v : Value) : Value :=
  Value.vStr (pyStr v)

/-- Stage-3 coercion of one column to its expected type (source lines 83-99).
For the integer target the whole-column cast can raise; the exception is
caught by the source's `try/except` and the column is left unchanged. -/
def coerceColumn (t : PyType) (vs : List Value) : List Value :=
  match t with
  | PyType.int =>
    match coerceIntColumn vs with
    | some ws => ws
    | none => vs
  | PyType.float => vs.map toNumeric
  | PyType.datetime => vs.map toDatetime
  | PyType.str => vs.map astypeStr
  | PyType.bool => vs.map astypeBool

/-- Overwrite the named column of a dataset with the result of a whole-column
transformation (the assignment `df_cleaned[col] = ...`). -/
def setColumn (d : Dataset) (c : String) (f : List Value → List Value) : Dataset :=
  match colIdx d.cols c with
  | none => d
  | some i =>
    let newVals := f (d.rows.map (fun r => r.getD i Value.vNull))
    { cols := d.cols, rows := d.rows.zipWith (fun r v => r.set i v) newVals }

/-- Stage 3 of `validate_and_clean` (source lines 79-99): walk the
`data_types` dictionary in order; a column absent from the dataset is skipped
with a warning, a present column is coerced to its expected type. -/
def applyCoercions : List (String × PyType) → Dataset → Dataset
  | [], d => d
  | (c, t) :: rest, d =>
    applyCoercions rest
      (if decide (c ∈ d.cols) then setColumn d c (coerceColumn t) else d)

/-- Stage 1 (source line 52): `df_cleaned = self.remove_duplicates(df.copy())`. -/
def stage1 (d : Dataset) : Dataset :=
  { cols := d.cols, rows := remove_duplicates d.rows }

/-- Stage 2 (source lines 60-74): when `required_fields` is non-empty, drop
the rows that are null in a required field that exists in the dataset. -/
def stage2 (cfg : ValidatorConfig) (d : Dataset) : Dataset :=
  if cfg.required_fields = [] then d
  else if cfg.required_fields.filter (fun c => decide (c ∈ d.cols)) = [] then d
  else
    { cols := d.cols,
      rows := dropnaRows d.cols (cfg.required_fields.filter (fun c => decide (c ∈ d.cols))) d.rows }

/-- Stage 4 (source lines 101-113): drop the rows that are null, after
coercion, in a `data_types` column that exists in the dataset. -/
def stage4 (cfg : ValidatorConfig) (d : Dataset) : Dataset :=
  if (cfg.data_types.map Prod.fst).filter (fun c => decide (c ∈ d.cols)) = [] then d
  else
    { cols := d.cols,
      rows := dropnaRows d.cols
        ((cfg.data_types.map Prod.fst).filter (fun c => decide (c ∈ d.cols))) d.rows }

/-- `DataValidator.validate_and_clean` (source lines 42-117): deduplication,
required-field null removal, type coercion, post-coercion null removal, in
this fixed order. -/
def validate_and_clean (cfg : ValidatorConfig) (d : Dataset) : Dataset :=
  stage4 cfg (applyCoercions cfg.data_types (stage2 cfg (stage1 d)))

/-- `main.py` lines 64-68: the validation settings for a table name, an
absent entry meaning no required fields and no expected types. -/
def configFor (m : List (String × ValidatorConfig)) (n : String) : ValidatorConfig :=
  match m.lookup n with
  | some cfg => cfg
  | none => { required_fields := [], data_types := [] }

/-!
Schema inference and persistence (`DataPersister`, source lines 134-206).

A pandas `DataFrame` handed to the persister carries one storage-relevant
dtype per column; `_get_sqlalchemy_type` dispatches on that dtype alone.
`PandasDtype` enumerates the dtypes reachable in this pipeline: plain and
nullable integers, floats, booleans, datetimes and the catch-all `object`.
-/

/-- The pandas column dtypes reachable in this pipeline.  `nullableInt64`
is `pd.Int64Dtype()`, produced by the validator's integer coercion;
`object` is the catch-all dtype of string and mixed columns. -/
inductive PandasDtype : Type
  | int64
  | nullableInt64
  | float64
  | float32
  | boolean
  | datetime64
  | object
deriving DecidableEq, Repr

/-- The SQLAlchemy column types used by `_get_sqlalchemy_type`. -/
inductive SqlColumnType : Type
  | Integer
  | Float
  | DateTime
  | Boolean
  | String
deriving DecidableEq, Repr

/-- A dataframe as seen by the persister: named, dtyped columns and the rows
of cell values (aligned with the column list). -/
structure PDataFrame where
  cols : List (String × PandasDtype)
  rows : List Row
deriving DecidableEq, Repr

/-- Which cell values a pandas column of the given dtype can hold (the
well-formedness of a dataframe).  `object` columns hold anything. -/
def dtypeAdmits : PandasDtype → Value → Bool
  | PandasDtype.int64, Value.vInt _ => true
  | PandasDtype.int64, _ => false
  | PandasDtype.nullableInt64, Value.vInt _ => true
  | PandasDtype.nullableInt64, Value.vNull => true
  | PandasDtype.nullableInt64, _ => false
  | PandasDtype.float64, Value.vFloat _ => true
  | PandasDtype.float64, Value.vNull => true
  | PandasDtype.float64, _ => false
  | PandasDtype.float32, Value.vFloat _ => true
  | PandasDtype.float32, Value.vNull => true
  | PandasDtype.float32, _ => false
  | PandasDtype.boolean, Value.vBool _ => true
  | PandasDtype.boolean, _ => false
  | PandasDtype.datetime64, Value.vTime _ => true
  | PandasDtype.datetime64, Value.vNull => true
  | PandasDtype.datetime64, _ => false
  | PandasDtype.object, _ => true

/-- A dataframe is well formed when every row matches the column list in
length and every cell is admitted by its column's dtype. -/
def pdframeWf (df : PDataFrame) : Bool :=
  df.rows.all (fun r =>
    r.length == df.cols.length &&
    (List.range df.cols.length).all (fun i =>
      dtypeAdmits (df.cols.getD i (("", PandasDtype.object))).2 (r.getD i Value.vNull)))

/-- `DataPersister._get_sqlalchemy_type` (source lines 147-161): dispatch on
the pandas dtype alone — integer dtypes (plain or nullable) map to
`Integer`, float dtypes to `Float`, datetime to `DateTime`, boolean to
`Boolean`, and anything else (in particular `object`) to `String`. -/
def get_sqlalchemy_type : PandasDtype → SqlColumnType
  | PandasDtype.int64 => SqlColumnType.Integer
  | PandasDtype.nullableInt64 => SqlColumnType.Integer
  | PandasDtype.float64 => SqlColumnType.Float
  | PandasDtype.float32 => SqlColumnType.Float
  | PandasDtype.datetime64 => SqlColumnType.DateTime
  | PandasDtype.boolean => SqlColumnType.Boolean
  | PandasDtype.object => SqlColumnType.String

/-- A column of a storage table as created by `create_table_from_dataframe`:
name, storage type, nullability and primary-key flag. -/
structure SqlColumn where
  name : String
  ctype : SqlColumnType
  nullable : Bool
  primary_key : Bool
deriving DecidableEq, Repr

/-- A storage table: fixed column list and the persisted rows. -/
structure SqlTable where
  name : String
  columns : List SqlColumn
  rows : List Row
deriving DecidableEq, Repr

/-- The relational store reachable through the SQLAlchemy engine: its tables
plus a connectivity flag for the storage boundary. -/
structure Database where
  tables : List SqlTable
  connected : Bool
deriving DecidableEq, Repr

/-- The column list built by the loop of source lines 176-179: one nullable,
non-primary-key column per dataframe column, typed by
`_get_sqlalchemy_type` of its dtype. -/
def mkColumns (df : PDataFrame) : List SqlColumn :=
  df.cols.map (fun p => SqlColumn.mk p.1 (get_sqlalchemy_type p.2) true false)

/-- `inspector.has_table(table_name)` (source line 172). -/
def has_table (db : Database) (n : String) : Bool :=
  db.tables.any (fun t => t.name == n)

/-- `DataPersister.create_table_from_dataframe` (source lines 163-191): if a
table of that name exists, return at once (no comparison, no alteration);
otherwise create an empty table whose columns are inferred from the
dataframe's dtypes. -/
def create_table_from_dataframe (db : Database) (df : PDataFrame) (n : String) : Database :=
  if has_table db n then db
  else { db with tables := db.tables ++ [SqlTable.mk n (mkColumns df) []] }

/-- Index of the first table with the given name in a table list. -/
def findTableIdx : List SqlTable → String → Option Nat
  | [], _ => none
  | t :: ts, n => if t.name = n then some 0 else (findTableIdx ts n).map (fun i => i + 1)

/-- Index of the named table in the store. -/
def tableIdx (db : Database) (n : String) : Option Nat :=
  findTableIdx db.tables n

/-- A value that is a whole number (an integer, or a float with no
fractional part), as the spec's inference rule reads column values. -/
def isWholeValue : Value → Bool
  | Value.vInt _ => true
  | Value.vFloat q => q.den == 1
  | _ => false

/-- A numeric value (integer or float). -/
def isNumericValue : Value → Bool
  | Value.vInt _ => true
  | Value.vFloat _ => true
  | _ => false

/-- A calendar date/time value. -/
def isTimeValue : Value → Bool
  | Value.vTime _ => true
  | _ => false

/-- A boolean value. -/
def isBoolValue : Value → Bool
  | Value.vBool _ => true
  | _ => false

/-- The non-null values of a column. -/
def nonNullValues (vs : List Value) : List Value :=
  vs.filter (fun v => !(isNullV v))

/-- The storage type the SPEC's inference rule assigns to a column, stated
over the column's observed values (spec section 4.2): integer if every
non-null value is a whole number, else float if every non-null value is
numeric, else timestamp, else boolean, else string.  This is the spec-side
definition, to be compared with the source's dtype dispatch
`get_sqlalchemy_type`. -/
def specStorageType (vs : List Value) : SqlColumnType :=
  if (nonNullValues vs).all isWholeValue then SqlColumnType.Integer
  else if (nonNullValues vs).all isNumericValue then SqlColumnType.Float
  else if (nonNullValues vs).all isTimeValue then SqlColumnType.DateTime
  else if (nonNullValues vs).all isBoolValue then SqlColumnType.Boolean
  else SqlColumnType.String

/-- Every dataframe column exists in the table (a write that mentions an
unknown column is rejected by the store). -/
def colsCompatible (df : PDataFrame) (t : SqlTable) : Bool :=
  df.cols.all (fun p => t.columns.any (fun c => c.name == p.1))

/-- Modelled from the spec: the storage boundary behind
`df.to_sql(table_name, engine, if_exists='append', index=False)` (source
line 202) — the pandas/SQLAlchemy write itself is outside this repository.
Per spec sections 4.2 and 6 the boundary appends every dataframe row as a new
row, creating the table first when it is absent, and rejects the write (an
`SQLAlchemyError`) on connectivity loss or on a mismatch against the
existing schema, modelled here as a dataframe column the table lacks. -/
def to_sql_append (df : PDataFrame) (db : Database) (n : String) : Except String Database :=
  if db.connected = false then Except.error ("connection lost")
  else
    match tableIdx db n with
    | none =>
      Except.ok { db with tables := db.tables ++ [SqlTable.mk n (mkColumns df) df.rows] }
    | some i =>
      let t := db.tables.getD i (SqlTable.mk n [] [])
      if colsCompatible df t then
        Except.ok { db with tables := db.tables.set i (SqlTable.mk t.name t.columns (t.rows ++ df.rows)) }
      else Except.error ("rejected write")

/-- `DataPersister.save_dataframe_to_db` (source lines 194-206): one call to
`to_sql`; an `SQLAlchemyError` is logged and re-raised to the caller
unchanged, a success is returned unchanged — no retry, no swallowing. -/
def save_dataframe_to_db (df : PDataFrame) (db : Database) (n : String) : Except String Database :=
  match to_sql_append df db n with
  | Except.ok db2 => Except.ok db2
  | Except.error e => Except.error e

/-- The condition under which the modelled storage boundary rejects a write. -/
def storageRejects (df : PDataFrame) (db : Database) (n : String) : Bool :=
  !db.connected ||
    (match tableIdx db n with
     | none => false
     | some i => !colsCompatible df (db.tables.getD i (SqlTable.mk n [] [])))

/-!
Imperative trace of `validate_and_clean` for the purity claim: the source
receives `df`, takes `df.copy()` at line 52, and from then on every in-place
operation (`dropna(..., inplace=True)`, `df_cleaned[col] = ...`) targets the
copy only.  The heap is a list of datasets addressed by position.
-/

/-- The dataset stored at a heap address (out-of-range reads the empty
dataset). -/
def readH (h : List Dataset) (a : Nat) : Dataset :=
  h.getD a (Dataset.mk [] [])

/-- Overwrite the dataset at a heap address (an in-place mutation). -/
def writeH (h : List Dataset) (a : Nat) (d : Dataset) : List Dataset :=
  h.set a d

/-- The stage-3 loop as in-place column assignments to the dataset at
address `a`. -/
def applyCoercionsImp : List (String × PyType) → List Dataset → Nat → List Dataset
  | [], h, _ => h
  | (c, t) :: rest, h, a =>
    let d := readH h a
    applyCoercionsImp rest
      (if decide (c ∈ d.cols) then writeH h a (setColumn d c (coerceColumn t)) else h) a

/-- Stage 2 as the in-place `dropna(subset=..., inplace=True)` of source
line 65, applied to the dataset at address `a`. -/
def stage2Imp (cfg : ValidatorConfig) (h : List Dataset) (a : Nat) : List Dataset :=
  if cfg.required_fields = [] then h
  else if cfg.required_fields.filter (fun c => decide (c ∈ (readH h a).cols)) = [] then h
  else
    writeH h a
      (Dataset.mk (readH h a).cols
        (dropnaRows (readH h a).cols
          (cfg.required_fields.filter (fun c => decide (c ∈ (readH h a).cols)))
          (readH h a).rows))

/-- Stage 4 as the in-place `dropna(subset=..., inplace=True)` of source
line 106, applied to the dataset at address `a`. -/
def stage4Imp (cfg : ValidatorConfig) (h : List Dataset) (a : Nat) : List Dataset :=
  if (cfg.data_types.map Prod.fst).filter (fun c => decide (c ∈ (readH h a).cols)) = [] then h
  else
    writeH h a
      (Dataset.mk (readH h a).cols
        (dropnaRows (readH h a).cols
          ((cfg.data_types.map Prod.fst).filter (fun c => decide (c ∈ (readH h a).cols)))
          (readH h a).rows))

/-- Imperative trace of `validate_and_clean` (source lines 42-117): the input
dataset lives at `dfA`; `df_cleaned` is allocated as a deduplicated copy at
the fresh address `h.length` (line 52), every in-place operation writes that
address, and the address of the result is returned. -/
def validateAndCleanImp (cfg : ValidatorConfig) (h : List Dataset) (dfA : Nat) :
    List Dataset × Nat :=
  let a := h.length
  let h1 := h ++ [stage1 (readH h dfA)]
  (stage4Imp cfg (applyCoercionsImp cfg.data_types (stage2Imp cfg h1 a) a) a, a)

/-!
List helpers (positional reading of `set`, `append` and `zipWith`), proved by
direct induction so the development is self-contained.
-/

theorem listGetD_set_ne {α : Type _} :
    ∀ (l : List α) (i j : Nat) (x dflt : α), i ≠ j →
      (l.set i x).getD j dflt = l.getD j dflt
  | [], _, _, _, _, _ => rfl
  | _ :: _, 0, 0, _, _, h => absurd rfl h
  | _ :: _, 0, _ + 1, _, _, _ => rfl
  | _ :: _, _ + 1, 0, _, _, _ => rfl
  | _ :: l, i + 1, j + 1, x, dflt, h =>
    listGetD_set_ne l i j x dflt (fun hh => h (by rw [hh]))

theorem listGetD_set_self {α : Type _} :
    ∀ (l : List α) (i : Nat) (x dflt : α), i < l.length →
      (l.set i x).getD i dflt = x
  | [], i, _, _, h => absurd h (Nat.not_lt_zero i)
  | _ :: _, 0, _, _, _ => rfl
  | _ :: l, i + 1, x, dflt, h =>
    listGetD_set_self l i x dflt (Nat.lt_of_succ_lt_succ h)

theorem listGetD_append_lt {α : Type _} :
    ∀ (l₁ l₂ : List α) (i : Nat) (dflt : α), i < l₁.length →
      (l₁ ++ l₂).getD i dflt = l₁.getD i dflt
  | [], _, i, _, h => absurd h (Nat.not_lt_zero i)
  | _ :: _, _, 0, _, _ => rfl
  | _ :: l₁, l₂, i + 1, dflt, h =>
    listGetD_append_lt l₁ l₂ i dflt (Nat.lt_of_succ_lt_succ h)

theorem listGetD_append_len {α : Type _} :
    ∀ (l₁ l₂ : List α) (dflt : α), (l₁ ++ l₂).getD l₁.length dflt = l₂.getD 0 dflt
  | [], _, _ => rfl
  | _ :: l₁, l₂, dflt => listGetD_append_len l₁ l₂ dflt

theorem listGetD_mem {α : Type _} :
    ∀ (l : List α) (i : Nat) (dflt : α), i < l.length → l.getD i dflt ∈ l
  | [], i, _, h => absurd h (Nat.not_lt_zero i)
  | _ :: _, 0, _, _ => List.mem_cons_self _ _
  | _ :: l, i + 1, dflt, h =>
    List.mem_cons_of_mem _ (listGetD_mem l i dflt (Nat.lt_of_succ_lt_succ h))

theorem listMem_getD {α : Type _} {a : α} :
    ∀ (l : List α) (dflt : α), a ∈ l → ∃ i, i < l.length ∧ l.getD i dflt = a := by
  intro l dflt h
  induction l with
  | nil => cases h
  | cons x xs ih =>
    rcases List.mem_cons.mp h with h1 | h2
    · exact ⟨0, Nat.succ_pos _, h1.symm⟩
    · obtain ⟨i, hi, he⟩ := ih h2
      exact ⟨i + 1, Nat.succ_lt_succ hi, he⟩

theorem colIdx_isSome_of_mem {c : String} :
    ∀ {cols : List String}, c ∈ cols → ∃ i, colIdx cols c = some i := by
  intro cols h
  induction cols with
  | nil => cases h
  | cons x xs ih =>
    by_cases hx : x = c
    · exact ⟨0, by simp [colIdx, hx]⟩
    · rcases List.mem_cons.mp h with h1 | h2
      · exact absurd h1.symm hx
      · obtain ⟨i, hi⟩ := ih h2
        exact ⟨i + 1, by simp [colIdx, hx, hi]⟩

theorem colIdx_getD {c : String} :
    ∀ {cols : List String} {i : Nat}, colIdx cols c = some i →
      i < cols.length ∧ cols.getD i ("") = c := by
  intro cols
  induction cols with
  | nil => intro i h; cases h
  | cons x xs ih =>
    intro i h
    by_cases hx : x = c
    · simp [colIdx, hx] at h
      subst h
      exact ⟨Nat.succ_pos _, hx⟩
    · simp [colIdx, hx] at h
      obtain ⟨j, hj, hji⟩ := h
      obtain ⟨hlt, hget⟩ := ih hj
      subst hji
      exact ⟨Nat.succ_lt_succ hlt, hget⟩

theorem colIdx_ne {c c' : String} {cols : List String} {i j : Nat}
    (hcc : c ≠ c') (hi : colIdx cols c = some i) (hj : colIdx cols c' = some j) :
    i ≠ j := by
  intro he
  obtain ⟨_, hgi⟩ := colIdx_getD hi
  obtain ⟨_, hgj⟩ := colIdx_getD hj
  rw [he, hgj] at hgi
  exact hcc hgi.symm

/-!
Deduplication: order preservation and the first-occurrence characterisation.
-/

theorem dropDupsAux_sublist : ∀ (rows seen : List Row), List.Sublist (dropDupsAux seen rows) rows := by
  intro rows
  induction rows with
  | nil => intro seen; exact List.Sublist.refl []
  | cons r rs ih =>
    intro seen
    by_cases h : r ∈ seen
    · simp only [dropDupsAux, if_pos h]
      exact List.Sublist.cons r (ih seen)
    · simp only [dropDupsAux, if_neg h]
      exact List.Sublist.cons₂ r (ih (r :: seen))

theorem dropDupsAux_eq_firstOccurrences :
    ∀ (rows seen pre : List Row), (∀ x : Row, x ∈ seen ↔ x ∈ pre) →
      dropDupsAux seen rows = firstOccurrences pre rows := by
  intro rows
  induction rows with
  | nil => intro seen pre _; rfl
  | cons r rs ih =>
    intro seen pre hinv
    by_cases h : r ∈ seen
    · have hp : r ∈ pre := (hinv r).mp h
      simp only [dropDupsAux, firstOccurrences, if_pos h, if_pos hp]
      refine ih seen (pre ++ [r]) ?_
      intro x
      constructor
      · intro hx
        exact List.mem_append_left _ ((hinv x).mp hx)
      · intro hx
        rcases List.mem_append.mp hx with hx1 | hx2
        · exact (hinv x).mpr hx1
        · rcases List.mem_singleton.mp hx2 with rfl
          exact h
    · have hp : r ∉ pre := fun hc => h ((hinv r).mpr hc)
      simp only [dropDupsAux, firstOccurrences, if_neg h, if_neg hp]
      refine congrArg (fun l => r :: l) (ih (r :: seen) (pre ++ [r]) ?_)
      intro x
      constructor
      · intro hx
        rcases List.mem_cons.mp hx with rfl | hx2
        · exact List.mem_append_right _ (List.mem_singleton.mpr rfl)
        · exact List.mem_append_left _ ((hinv x).mp hx2)
      · intro hx
        rcases List.mem_append.mp hx with hx1 | hx2
        · exact List.mem_cons_of_mem _ ((hinv x).mpr hx1)
        · rcases List.mem_singleton.mp hx2 with rfl
          exact List.mem_cons_self _ _

theorem remove_duplicates_sublist (rows : List Row) :
    List.Sublist (remove_duplicates rows) rows :=
  dropDupsAux_sublist rows []

theorem remove_duplicates_firstOccurrences (rows : List Row) :
    remove_duplicates rows = firstOccurrences [] rows :=
  dropDupsAux_eq_firstOccurrences rows [] [] (fun _ => Iff.rfl)

/-!
Stage-3 plumbing: the coercions preserve column list, row count, and every
column not named in `data_types`.
-/

theorem coerceColumn_length (t : PyType) (vs : List Value) :
    (coerceColumn t vs).length = vs.length := by
  cases t with
  | int =>
    unfold coerceColumn coerceIntColumn
    by_cases h : (vs.map toNumeric).any isFractional
    · simp [h]
    · simp [h]
  | float => simp [coerceColumn]
  | str => simp [coerceColumn]
  | bool => simp [coerceColumn]
  | datetime => simp [coerceColumn]

theorem setColumn_cols (d : Dataset) (c : String) (f : List Value → List Value) :
    (setColumn d c f).cols = d.cols := by
  unfold setColumn
  cases colIdx d.cols c <;> rfl

theorem setColumn_rows_length (d : Dataset) (c : String) (f : List Value → List Value)
    (hf : ∀ vs, (f vs).length = vs.length) :
    (setColumn d c f).rows.length = d.rows.length := by
  unfold setColumn
  cases colIdx d.cols c with
  | none => rfl
  | some i =>
    simp only [List.length_zipWith, hf, List.length_map, Nat.min_self]

theorem zipSet_getD :
    ∀ (rows : List Row) (vals : List Value) (i j : Nat), vals.length = rows.length →
      j < rows.length →
      (rows.zipWith (fun r v => r.set i v) vals).getD j [] =
        (rows.getD j []).set i (vals.getD j Value.vNull) := by
  intro rows
  induction rows with
  | nil => intro vals i j _ h; exact absurd h (Nat.not_lt_zero j)
  | cons r rs ih =>
    intro vals i j hlen hj
    cases vals with
    | nil => cases hlen
    | cons v vs =>
      cases j with
      | zero => rfl
      | succ j =>
        exact ih vs i j (Nat.succ_injective hlen) (Nat.lt_of_succ_lt_succ hj)

theorem listGetD_default {α : Type _} :
    ∀ (l : List α) (i : Nat) (dflt : α), l.length ≤ i → l.getD i dflt = dflt
  | [], _, _, _ => rfl
  | _ :: _, 0, _, h => absurd h (Nat.not_le.mpr (Nat.succ_pos _))
  | _ :: l, i + 1, dflt, h => listGetD_default l i dflt (Nat.le_of_succ_le_succ h)

theorem getVal_of_some {cols : List String} {c : String} {i : Nat} (r : Row)
    (h : colIdx cols c = some i) : getVal cols r c = r.getD i Value.vNull := by
  unfold getVal
  rw [h]

theorem getVal_of_none {cols : List String} {c : String} (r : Row)
    (h : colIdx cols c = none) : getVal cols r c = Value.vNull := by
  unfold getVal
  rw [h]

theorem setColumn_getVal_ne (d : Dataset) (c c' : String) (f : List Value → List Value)
    (hf : ∀ vs, (f vs).length = vs.length) (hne : c' ≠ c) (j : Nat) :
    getVal (setColumn d c f).cols ((setColumn d c f).rows.getD j []) c' =
      getVal d.cols (d.rows.getD j []) c' := by
  rcases hci : colIdx d.cols c with _ | i
  · unfold setColumn
    rw [hci]
  · have hcols : (setColumn d c f).cols = d.cols := setColumn_cols d c f
    have hrows : (setColumn d c f).rows =
        d.rows.zipWith (fun r v => r.set i v)
          (f (d.rows.map (fun r => r.getD i Value.vNull))) := by
      unfold setColumn
      rw [hci]
    rw [hcols]
    rcases hci' : colIdx d.cols c' with _ | i'
    · rw [getVal_of_none _ hci', getVal_of_none _ hci']
    · rw [getVal_of_some _ hci', getVal_of_some _ hci']
      have hii : i ≠ i' := colIdx_ne (fun h => hne h.symm) hci hci'
      by_cases hj : j < d.rows.length
      · rw [hrows, zipSet_getD _ _ i j (by rw [hf, List.length_map]) hj]
        rw [listGetD_set_ne _ i i' _ _ hii]
      · have h1 : d.rows.getD j [] = [] :=
          listGetD_default d.rows j [] (Nat.le_of_not_lt hj)
        have hlen2 : (setColumn d c f).rows.length = d.rows.length :=
          setColumn_rows_length d c f hf
        have h2 : (setColumn d c f).rows.getD j [] = [] :=
          listGetD_default _ j [] (by rw [hlen2]; exact Nat.le_of_not_lt hj)
        rw [h2, h1]

theorem applyCoercions_cols :
    ∀ (dts : List (String × PyType)) (d : Dataset), (applyCoercions dts d).cols = d.cols := by
  intro dts
  induction dts with
  | nil => intro d; rfl
  | cons p rest ih =>
    intro d
    rcases p with ⟨c, t⟩
    show (applyCoercions rest _).cols = d.cols
    by_cases h : c ∈ d.cols
    · simp [h, ih, setColumn_cols]
    · simp [h, ih]

theorem applyCoercions_rows_length :
    ∀ (dts : List (String × PyType)) (d : Dataset),
      (applyCoercions dts d).rows.length = d.rows.length := by
  intro dts
  induction dts with
  | nil => intro d; rfl
  | cons p rest ih =>
    intro d
    rcases p with ⟨c, t⟩
    show (applyCoercions rest _).rows.length = d.rows.length
    by_cases h : c ∈ d.cols
    · simp only [h, decide_True, if_true, ih]
      exact setColumn_rows_length d c (coerceColumn t) (coerceColumn_length t)
    · simp [h, ih]

theorem applyCoercions_getVal_ne :
    ∀ (dts : List (String × PyType)) (d : Dataset) (j : Nat) (c' : String),
      c' ∉ dts.map Prod.fst →
      getVal (applyCoercions dts d).cols ((applyCoercions dts d).rows.getD j []) c' =
        getVal d.cols (d.rows.getD j []) c' := by
  intro dts
  induction dts with
  | nil => intro d j c' _; rfl
  | cons p rest ih =>
    intro d j c' hc'
    rcases p with ⟨c, t⟩
    have hcc : c' ≠ c := by
      intro he
      exact hc' (by simp [he])
    have hrest : c' ∉ rest.map Prod.fst := by
      intro he
      exact hc' (by simp [he])
    show getVal (applyCoercions rest _).cols ((applyCoercions rest _).rows.getD j []) c' = _
    by_cases h : c ∈ d.cols
    · simp only [h, decide_True, if_true]
      rw [ih (setColumn d c (coerceColumn t)) j c' hrest]
      exact setColumn_getVal_ne d c c' (coerceColumn t) (coerceColumn_length t) hcc j
    · simp only [h, decide_False, if_false]
      exact ih d j c' hrest

theorem rowOk_nonnull {cols subset : List String} {r : Row} {c : String}
    (h : rowOk cols subset r = true) (hc : c ∈ subset) :
    getVal cols r c ≠ Value.vNull := by
  intro hnull
  have := (List.all_eq_true.mp h) c hc
  rw [hnull] at this
  simp [isNullV] at this

theorem stage1_cols (d : Dataset) : (stage1 d).cols = d.cols := rfl

theorem stage2_cols (cfg : ValidatorConfig) (d : Dataset) : (stage2 cfg d).cols = d.cols := by
  unfold stage2
  split
  · rfl
  · split
    · rfl
    · rfl

theorem stage4_cols (cfg : ValidatorConfig) (d : Dataset) : (stage4 cfg d).cols = d.cols := by
  unfold stage4
  split
  · rfl
  · rfl

theorem stage2_rows_mem {cfg : ValidatorConfig} {d : Dataset} {r : Row}
    (h : r ∈ (stage2 cfg d).rows) : r ∈ d.rows := by
  unfold stage2 at h
  split at h
  · exact h
  · split at h
    · exact h
    · exact (List.mem_filter.mp h).1

theorem stage4_rows_mem {cfg : ValidatorConfig} {d : Dataset} {r : Row}
    (h : r ∈ (stage4 cfg d).rows) : r ∈ d.rows := by
  unfold stage4 at h
  split at h
  · exact h
  · exact (List.mem_filter.mp h).1

theorem stage2_required_nonnull {cfg : ValidatorConfig} {d : Dataset} {r : Row} {c : String}
    (hcr : c ∈ cfg.required_fields) (hcd : c ∈ d.cols)
    (hr : r ∈ (stage2 cfg d).rows) : getVal d.cols r c ≠ Value.vNull := by
  have hne : cfg.required_fields ≠ [] := List.ne_nil_of_mem hcr
  have hca : c ∈ cfg.required_fields.filter (fun x => decide (x ∈ d.cols)) :=
    List.mem_filter.mpr ⟨hcr, by simpa using hcd⟩
  have hane : cfg.required_fields.filter (fun x => decide (x ∈ d.cols)) ≠ [] :=
    List.ne_nil_of_mem hca
  unfold stage2 at hr
  rw [if_neg hne, if_neg hane] at hr
  exact rowOk_nonnull (List.mem_filter.mp hr).2 hca

theorem stage4_checked_nonnull {cfg : ValidatorConfig} {d : Dataset} {r : Row} {c : String}
    (hck : c ∈ cfg.data_types.map Prod.fst) (hcd : c ∈ d.cols)
    (hr : r ∈ (stage4 cfg d).rows) : getVal d.cols r c ≠ Value.vNull := by
  have hca : c ∈ (cfg.data_types.map Prod.fst).filter (fun x => decide (x ∈ d.cols)) :=
    List.mem_filter.mpr ⟨hck, by simpa using hcd⟩
  have hane : (cfg.data_types.map Prod.fst).filter (fun x => decide (x ∈ d.cols)) ≠ [] :=
    List.ne_nil_of_mem hca
  unfold stage4 at hr
  rw [if_neg hane] at hr
  exact rowOk_nonnull (List.mem_filter.mp hr).2 hca

/-- C10: for every input dataset and every configuration, the dataset
returned by `validate_and_clean` has exactly the same column set as the
input dataset — no stage adds or removes a column, including when all rows
are eliminated. -/
theorem C10_columns_preserved (cfg : ValidatorConfig) (d : Dataset) :
    (validate_and_clean cfg d).cols = d.cols := by
  unfold validate_and_clean
  rw [stage4_cols, applyCoercions_cols, stage2_cols, stage1_cols]

/-- C8: with an empty validation configuration (the `main.py` fallback for a
table name with no entry) `validate_and_clean` is deduplication alone: rows
identical to an earlier row are removed keeping the first occurrence, order
is otherwise preserved (the result is a sublist), and no row is dropped for
nulls or types. -/
theorem C8_dedup_only (d : Dataset) (m : List (String × ValidatorConfig)) (n : String) :
    validate_and_clean ⟨[], []⟩ d = ⟨d.cols, remove_duplicates d.rows⟩ ∧
    remove_duplicates d.rows = firstOccurrences [] d.rows ∧
    List.Sublist (remove_duplicates d.rows) d.rows ∧
    (m.lookup n = none → configFor m n = ⟨[], []⟩) := by
  refine ⟨rfl, remove_duplicates_firstOccurrences d.rows,
    remove_duplicates_sublist d.rows, ?_⟩
  intro h
  simp [configFor, h]

/-- C8 witness: the empty-configuration run and the missing-entry fallback at
concrete inputs. -/
theorem C8_dedup_only_witness :
    validate_and_clean ⟨[], []⟩ ⟨[("a")], [[Value.vInt 1], [Value.vInt 1], [Value.vNull]]⟩ =
      ⟨[("a")], remove_duplicates [[Value.vInt 1], [Value.vInt 1], [Value.vNull]]⟩ ∧
    configFor [] ("orders") = ⟨[], []⟩ :=
  ⟨(C8_dedup_only ⟨[("a")], [[Value.vInt 1], [Value.vInt 1], [Value.vNull]]⟩ [] ("orders")).1,
   (C8_dedup_only ⟨[("a")], [[Value.vInt 1], [Value.vInt 1], [Value.vNull]]⟩ [] ("orders")).2.2.2 rfl⟩

/-- C1: every row surviving `validate_and_clean` is non-null in every
`required_fields` column that exists in the dataset and in every
`data_types` column that exists in the dataset. -/
theorem C1_surviving_rows_nonnull (cfg : ValidatorConfig) (d : Dataset) (r : Row)
    (hr : r ∈ (validate_and_clean cfg d).rows) :
    (∀ c, c ∈ cfg.required_fields → c ∈ d.cols → getVal d.cols r c ≠ Value.vNull) ∧
    (∀ c t, (c, t) ∈ cfg.data_types → c ∈ d.cols → getVal d.cols r c ≠ Value.vNull) := by
  have hc2 : (stage2 cfg (stage1 d)).cols = d.cols := stage2_cols cfg (stage1 d)
  have hc3 : (applyCoercions cfg.data_types (stage2 cfg (stage1 d))).cols = d.cols := by
    rw [applyCoercions_cols]
    exact hc2
  have hchk : ∀ c, c ∈ cfg.data_types.map Prod.fst → c ∈ d.cols →
      getVal d.cols r c ≠ Value.vNull := by
    intro c hck hcd
    have h := stage4_checked_nonnull hck
      (by rw [hc3]; exact hcd : c ∈ (applyCoercions cfg.data_types (stage2 cfg (stage1 d))).cols)
      hr
    rw [hc3] at h
    exact h
  constructor
  · intro c hcr hcd
    by_cases hck : c ∈ cfg.data_types.map Prod.fst
    · exact hchk c hck hcd
    · have hr3 : r ∈ (applyCoercions cfg.data_types (stage2 cfg (stage1 d))).rows :=
        stage4_rows_mem hr
      obtain ⟨j, hj, hget⟩ :=
        listMem_getD (applyCoercions cfg.data_types (stage2 cfg (stage1 d))).rows ([] : Row) hr3
      have hgv := applyCoercions_getVal_ne cfg.data_types (stage2 cfg (stage1 d)) j c hck
      rw [hget] at hgv
      have hj2 : j < (stage2 cfg (stage1 d)).rows.length := by
        rw [← applyCoercions_rows_length cfg.data_types (stage2 cfg (stage1 d))]
        exact hj
      have hmem2 : (stage2 cfg (stage1 d)).rows.getD j [] ∈ (stage2 cfg (stage1 d)).rows :=
        listGetD_mem _ j [] hj2
      have hnn := stage2_required_nonnull hcr (show c ∈ (stage1 d).cols from hcd) hmem2
      rw [hc3] at hgv
      rw [hgv, show (stage2 cfg (stage1 d)).cols = (stage1 d).cols from stage2_cols cfg (stage1 d)]
      exact hnn
  · intro c t hct hcd
    exact hchk c (List.mem_map.mpr ⟨(c, t), hct, rfl⟩) hcd

/-- C1 witness: a surviving row of a concrete run is non-null in its required
column and in its typed column. -/
theorem C1_surviving_rows_nonnull_witness :
    getVal [("a"), ("b")] [Value.vInt 1, Value.vInt 2] ("a") ≠ Value.vNull ∧
    getVal [("a"), ("b")] [Value.vInt 1, Value.vInt 2] ("b") ≠ Value.vNull := by
  have h := C1_surviving_rows_nonnull ⟨[("a")], [(("b"), PyType.float)]⟩
    ⟨[("a"), ("b")], [[Value.vInt 1, Value.vInt 2]]⟩ [Value.vInt 1, Value.vInt 2] (by decide)
  exact ⟨h.1 ("a") (by decide) (by decide), h.2 ("b") PyType.float (by decide) (by decide)⟩

/-- C3: evaluation of the integer coercion at the failing input.  With
column `age = ["5", "x", "2.5"]` and expected type integer, the whole-column
cast raises (the fractional-looking `"2.5"` makes `astype(pd.Int64Dtype())`
refuse), the exception is caught, the column is left unchanged, and every
row survives stage 4 — the non-numeric `"x"` is never turned into null.
Without a fractional-looking value the claimed behaviour does hold, as the
second conjunct shows on the spec's own scenario `["5", "x", None]`. -/
theorem C3_failing_eval :
    validate_and_clean ⟨[], [(("age"), PyType.int)]⟩
        ⟨[("age")], [[Value.vStr ("5")], [Value.vStr ("x")], [Value.vStr ("2.5")]]⟩ =
      ⟨[("age")], [[Value.vStr ("5")], [Value.vStr ("x")], [Value.vStr ("2.5")]]⟩ ∧
    coerceIntColumn [Value.vStr ("5"), Value.vStr ("x"), Value.vNull] =
      some [Value.vInt 5, Value.vNull, Value.vNull] := by
  exact ⟨by decide, by decide⟩

/-- C4 counterexample: a null (`NaN`) cell in a boolean-typed column is
converted by `astype(bool)` to `true`, not to `false` as the claim states
(`bool(float('nan'))` is `True` in Python). -/
theorem C4_bool_counterexample :
    validate_and_clean ⟨[], [(("flag"), PyType.bool)]⟩ ⟨[("flag")], [[Value.vNull]]⟩ =
      ⟨[("flag")], [[Value.vBool true]]⟩ ∧
    Value.vBool true ≠ Value.vBool false := by
  exact ⟨by decide, by decide⟩

/-- C4 amended: stage 3 converts every cell of a boolean-typed column by
Python truthiness — numeric zero, the empty string and `false` become
`false`, every other value, the null (`NaN`) cell included, becomes
`true`. -/
theorem C4_bool_amended (vs : List Value) :
    coerceColumn PyType.bool vs = vs.map (fun v => Value.vBool (pyTruthy v)) ∧
    pyTruthy Value.vNull = true ∧
    (∀ v : Value,
      pyTruthy v =
        !(decide (v ∈ ([Value.vInt 0, Value.vFloat 0, Value.vStr (""), Value.vBool false] : List Value)))) := by
  refine ⟨rfl, rfl, ?_⟩
  intro v
  cases v with
  | vInt n =>
    by_cases h : n = 0
    · subst h; decide
    · simp [pyTruthy, h]
  | vFloat q =>
    by_cases h : q = 0
    · subst h; decide
    · simp [pyTruthy, h]
  | vStr s =>
    by_cases h : s = ""
    · subst h; decide
    · simp [pyTruthy, h]
  | vBool b => cases b <;> decide
  | vTime t => simp [pyTruthy]
  | vNull => decide

/-- C5 counterexample: a null cell in a string-typed column becomes the
non-null text `"nan"` under `astype(str)`, so the row survives stage 4 —
the claim says the row would be removed. -/
theorem C5_str_counterexample :
    validate_and_clean ⟨[], [(("name"), PyType.str)]⟩ ⟨[("name")], [[Value.vNull]]⟩ =
      ⟨[("name")], [[Value.vStr ("nan")]]⟩ ∧
    ([[Value.vStr ("nan")]] : List Row) ≠ ([] : List Row) := by
  exact ⟨by decide, by decide⟩

/-- C5 amended: stage 3 converts every cell of a string-typed column to its
textual representation; the null cell also becomes a non-null string
(`"nan"`), so after string coercion the column holds no null at all and
stage 4 removes no row on account of it. -/
theorem C5_str_amended (vs : List Value) :
    coerceColumn PyType.str vs = vs.map astypeStr ∧
    (∀ v : Value, astypeStr v = Value.vStr (pyStr v)) ∧
    (vs.map astypeStr).all (fun v => !(isNullV v)) = true ∧
    pyStr Value.vNull = "nan" := by
  refine ⟨rfl, fun _ => rfl, ?_, rfl⟩
  rw [List.all_eq_true]
  intro v hv
  obtain ⟨w, _, rfl⟩ := List.mem_map.mp hv
  rfl

/-!
Heap lemmas for the purity claim: writes at the fresh address do not touch
the input address, and the dataset at the fresh address follows the pure
stages.
-/

theorem readH_writeH_ne (h : List Dataset) (a b : Nat) (d : Dataset) (hab : a ≠ b) :
    readH (writeH h a d) b = readH h b :=
  listGetD_set_ne h a b d (Dataset.mk [] []) hab

theorem readH_writeH_self (h : List Dataset) (a : Nat) (d : Dataset) (ha : a < h.length) :
    readH (writeH h a d) a = d :=
  listGetD_set_self h a d (Dataset.mk [] []) ha

theorem writeH_length (h : List Dataset) (a : Nat) (d : Dataset) :
    (writeH h a d).length = h.length :=
  List.length_set h a d

theorem readH_append_lt (h : List Dataset) (x : Dataset) (b : Nat) (hb : b < h.length) :
    readH (h ++ [x]) b = readH h b :=
  listGetD_append_lt h [x] b (Dataset.mk [] []) hb

theorem readH_append_self (h : List Dataset) (x : Dataset) :
    readH (h ++ [x]) h.length = x :=
  listGetD_append_len h [x] (Dataset.mk [] [])

theorem stage2Imp_length (cfg : ValidatorConfig) (h : List Dataset) (a : Nat) :
    (stage2Imp cfg h a).length = h.length := by
  unfold stage2Imp
  split
  · rfl
  · split
    · rfl
    · exact writeH_length h a _

theorem stage2Imp_frame (cfg : ValidatorConfig) (h : List Dataset) (a b : Nat) (hab : a ≠ b) :
    readH (stage2Imp cfg h a) b = readH h b := by
  unfold stage2Imp
  split
  · rfl
  · split
    · rfl
    · exact readH_writeH_ne h a b _ hab

theorem stage2Imp_self (cfg : ValidatorConfig) (h : List Dataset) (a : Nat) (ha : a < h.length) :
    readH (stage2Imp cfg h a) a = stage2 cfg (readH h a) := by
  unfold stage2Imp stage2
  split
  · rfl
  · split
    · rfl
    · exact readH_writeH_self h a _ ha

theorem stage4Imp_length (cfg : ValidatorConfig) (h : List Dataset) (a : Nat) :
    (stage4Imp cfg h a).length = h.length := by
  unfold stage4Imp
  split
  · rfl
  · exact writeH_length h a _

theorem stage4Imp_frame (cfg : ValidatorConfig) (h : List Dataset) (a b : Nat) (hab : a ≠ b) :
    readH (stage4Imp cfg h a) b = readH h b := by
  unfold stage4Imp
  split
  · rfl
  · exact readH_writeH_ne h a b _ hab

theorem stage4Imp_self (cfg : ValidatorConfig) (h : List Dataset) (a : Nat) (ha : a < h.length) :
    readH (stage4Imp cfg h a) a = stage4 cfg (readH h a) := by
  unfold stage4Imp stage4
  split
  · rfl
  · exact readH_writeH_self h a _ ha

theorem applyCoercionsImp_length :
    ∀ (dts : List (String × PyType)) (h : List Dataset) (a : Nat),
      (applyCoercionsImp dts h a).length = h.length := by
  intro dts
  induction dts with
  | nil => intro h a; rfl
  | cons p rest ih =>
    intro h a
    rcases p with ⟨c, t⟩
    show (applyCoercionsImp rest _ a).length = h.length
    by_cases hc : c ∈ (readH h a).cols
    · simp only [hc, decide_True, if_true, ih, writeH_length]
    · simp [hc, ih]

theorem applyCoercionsImp_frame :
    ∀ (dts : List (String × PyType)) (h : List Dataset) (a b : Nat), a ≠ b →
      readH (applyCoercionsImp dts h a) b = readH h b := by
  intro dts
  induction dts with
  | nil => intro h a b _; rfl
  | cons p rest ih =>
    intro h a b hab
    rcases p with ⟨c, t⟩
    show readH (applyCoercionsImp rest _ a) b = readH h b
    by_cases hc : c ∈ (readH h a).cols
    · simp only [hc, decide_True, if_true]
      rw [ih _ a b hab]
      exact readH_writeH_ne h a b _ hab
    · simp only [hc, decide_False, if_false]
      exact ih h a b hab

theorem applyCoercionsImp_self :
    ∀ (dts : List (String × PyType)) (h : List Dataset) (a : Nat), a < h.length →
      readH (applyCoercionsImp dts h a) a = applyCoercions dts (readH h a) := by
  intro dts
  induction dts with
  | nil => intro h a _; rfl
  | cons p rest ih =>
    intro h a ha
    rcases p with ⟨c, t⟩
    show readH (applyCoercionsImp rest _ a) a = applyCoercions rest _
    by_cases hc : c ∈ (readH h a).cols
    · simp only [hc, decide_True, if_true]
      rw [ih _ a (by rw [writeH_length]; exact ha),
        readH_writeH_self h a _ ha]
    · simp only [hc, decide_False, if_false]
      exact ih h a ha

/-- C2: `validate_and_clean` never mutates its input.  In the imperative
trace the heap cell of the input dataset is unchanged by the call, and the
returned address holds exactly the pure function's result. -/
theorem C2_pure_no_mutation (cfg : ValidatorConfig) (h : List Dataset) (dfA : Nat)
    (hlt : dfA < h.length) :
    readH (validateAndCleanImp cfg h dfA).1 dfA = readH h dfA ∧
    readH (validateAndCleanImp cfg h dfA).1 (validateAndCleanImp cfg h dfA).2 =
      validate_and_clean cfg (readH h dfA) := by
  have hne : h.length ≠ dfA := fun he => absurd hlt (by rw [he]; exact Nat.lt_irrefl dfA)
  have ha1 : h.length < (h ++ [stage1 (readH h dfA)]).length := by
    rw [List.length_append]
    exact Nat.lt_succ_self h.length
  have ha2 : h.length < (stage2Imp cfg (h ++ [stage1 (readH h dfA)]) h.length).length := by
    rw [stage2Imp_length]
    exact ha1
  have ha3 : h.length <
      (applyCoercionsImp cfg.data_types
        (stage2Imp cfg (h ++ [stage1 (readH h dfA)]) h.length) h.length).length := by
    rw [applyCoercionsImp_length]
    exact ha2
  constructor
  · show readH (stage4Imp cfg _ h.length) dfA = readH h dfA
    rw [stage4Imp_frame _ _ _ _ hne, applyCoercionsImp_frame _ _ _ _ hne,
      stage2Imp_frame _ _ _ _ hne, readH_append_lt h _ dfA hlt]
  · show readH (stage4Imp cfg _ h.length) h.length = _
    rw [stage4Imp_self _ _ _ ha3, applyCoercionsImp_self _ _ _ ha2,
      stage2Imp_self _ _ _ ha1, readH_append_self]
    rfl

/-- C2 witness: a concrete one-dataset heap is unchanged at the input
address and the result address holds the cleaned dataset. -/
theorem C2_pure_no_mutation_witness :
    readH (validateAndCleanImp ⟨[("a")], []⟩ [⟨[("a")], [[Value.vNull]]⟩] 0).1 0 =
      readH [⟨[("a")], [[Value.vNull]]⟩] 0 ∧
    readH (validateAndCleanImp ⟨[("a")], []⟩ [⟨[("a")], [[Value.vNull]]⟩] 0).1
        (validateAndCleanImp ⟨[("a")], []⟩ [⟨[("a")], [[Value.vNull]]⟩] 0).2 =
      validate_and_clean ⟨[("a")], []⟩ (readH [⟨[("a")], [[Value.vNull]]⟩] 0) :=
  C2_pure_no_mutation ⟨[("a")], []⟩ [⟨[("a")], [[Value.vNull]]⟩] 0 (by decide)

theorem findTableIdx_spec {n : String} :
    ∀ {ts : List SqlTable} {i : Nat} (dflt : SqlTable), findTableIdx ts n = some i →
      i < ts.length ∧ (ts.getD i dflt).name = n := by
  intro ts
  induction ts with
  | nil => intro i dflt h; cases h
  | cons t rest ih =>
    intro i dflt h
    by_cases ht : t.name = n
    · simp [findTableIdx, ht] at h
      subst h
      exact ⟨Nat.succ_pos _, ht⟩
    · simp [findTableIdx, ht] at h
      obtain ⟨j, hj, hji⟩ := h
      obtain ⟨hlt, hget⟩ := ih dflt hj
      subst hji
      exact ⟨Nat.succ_lt_succ hlt, hget⟩

/-- C6: table creation is idempotent.  If a table with the target name
already exists, `create_table_from_dataframe` returns the store unchanged
(no error, no alteration, no recreation), even for a dataframe with
different columns or dtypes; and a second call with the same name is always
a no-op. -/
theorem C6_idempotent_create (db : Database) (df df2 : PDataFrame) (n : String) :
    (has_table db n = true → create_table_from_dataframe db df n = db) ∧
    create_table_from_dataframe (create_table_from_dataframe db df n) df2 n =
      create_table_from_dataframe db df n := by
  constructor
  · intro h
    unfold create_table_from_dataframe
    rw [if_pos h]
  · by_cases h : has_table db n = true
    · have h1 : create_table_from_dataframe db df n = db := by
        unfold create_table_from_dataframe
        rw [if_pos h]
      rw [h1]
      unfold create_table_from_dataframe
      rw [if_pos h]
    · have h1 : create_table_from_dataframe db df n =
          { db with tables := db.tables ++ [SqlTable.mk n (mkColumns df) []] } := by
        unfold create_table_from_dataframe
        rw [if_neg h]
      have h2 : has_table
          { db with tables := db.tables ++ [SqlTable.mk n (mkColumns df) []] } n = true := by
        unfold has_table
        simp [List.any_append]
      rw [h1]
      unfold create_table_from_dataframe
      rw [if_pos h2]

/-- C6 witness: creating over an existing table name is the identity on a
concrete store. -/
theorem C6_idempotent_create_witness :
    has_table (Database.mk [SqlTable.mk ("t") [] []] true) ("t") = true ∧
    create_table_from_dataframe (Database.mk [SqlTable.mk ("t") [] []] true)
        (PDataFrame.mk [(("a"), PandasDtype.int64)] []) ("t") =
      Database.mk [SqlTable.mk ("t") [] []] true :=
  ⟨by decide,
   (C6_idempotent_create (Database.mk [SqlTable.mk ("t") [] []] true)
     (PDataFrame.mk [(("a"), PandasDtype.int64)] [])
     (PDataFrame.mk [(("a"), PandasDtype.int64)] []) ("t")).1 (by decide)⟩

/-- C7 counterexample: the source infers storage types from the column
DTYPE, not from the observed values, so the spec's value-level rule
disagrees with the code on well-formed columns: an `object` column holding
only the whole number `1` is created as `String` (the rule says integer),
and a float column holding only the whole number `1.0` maps to `Float` (the
rule says integer). -/
theorem C7_inference_counterexample :
    (pdframeWf (PDataFrame.mk [(("n"), PandasDtype.object)] [[Value.vInt 1]]) = true ∧
      specStorageType [Value.vInt 1] = SqlColumnType.Integer ∧
      (create_table_from_dataframe (Database.mk [] true)
          (PDataFrame.mk [(("n"), PandasDtype.object)] [[Value.vInt 1]]) ("t")).tables =
        [SqlTable.mk ("t") [SqlColumn.mk ("n") SqlColumnType.String true false] []] ∧
      SqlColumnType.String ≠ SqlColumnType.Integer) ∧
    (pdframeWf (PDataFrame.mk [(("m"), PandasDtype.float64)] [[Value.vFloat 1]]) = true ∧
      specStorageType [Value.vFloat 1] = SqlColumnType.Integer ∧
      get_sqlalchemy_type PandasDtype.float64 = SqlColumnType.Float ∧
      SqlColumnType.Float ≠ SqlColumnType.Integer) := by
  exact ⟨by decide, by decide⟩

/-- C7 amended: schema inference is the fixed dispatch on the column dtype
— integer dtypes (plain and nullable) to Integer, float dtypes to Float,
datetime to DateTime, boolean to Boolean, everything else (object) to
String; every created column is nullable, no primary-key column is
synthesized (the created columns are exactly the dataframe's), and the
inference is a pure function of the dataframe, hence deterministic. -/
theorem C7_inference_amended (db : Database) (df : PDataFrame) (n : String)
    (h : has_table db n = false) :
    (create_table_from_dataframe db df n).tables =
      db.tables ++ [SqlTable.mk n (mkColumns df) []] ∧
    (∀ c ∈ mkColumns df, c.nullable = true ∧ c.primary_key = false) ∧
    (mkColumns df).map SqlColumn.name = df.cols.map Prod.fst ∧
    get_sqlalchemy_type PandasDtype.int64 = SqlColumnType.Integer ∧
    get_sqlalchemy_type PandasDtype.nullableInt64 = SqlColumnType.Integer ∧
    get_sqlalchemy_type PandasDtype.float64 = SqlColumnType.Float ∧
    get_sqlalchemy_type PandasDtype.float32 = SqlColumnType.Float ∧
    get_sqlalchemy_type PandasDtype.datetime64 = SqlColumnType.DateTime ∧
    get_sqlalchemy_type PandasDtype.boolean = SqlColumnType.Boolean ∧
    get_sqlalchemy_type PandasDtype.object = SqlColumnType.String := by
  refine ⟨?_, ?_, ?_, rfl, rfl, rfl, rfl, rfl, rfl, rfl⟩
  · unfold create_table_from_dataframe
    rw [if_neg (by simp [h])]
  · intro c hc
    obtain ⟨p, _, rfl⟩ := List.mem_map.mp hc
    exact ⟨rfl, rfl⟩
  · unfold mkColumns
    rw [List.map_map]
    rfl

/-- C7 witness: creating a fresh table on a concrete store yields the
dtype-dispatched, nullable, primary-key-free column. -/
theorem C7_inference_amended_witness :
    (create_table_from_dataframe (Database.mk [] true)
        (PDataFrame.mk [(("n"), PandasDtype.int64)] []) ("t")).tables =
      ([] : List SqlTable) ++
        [SqlTable.mk ("t") (mkColumns (PDataFrame.mk [(("n"), PandasDtype.int64)] [])) []] :=
  (C7_inference_amended (Database.mk [] true)
    (PDataFrame.mk [(("n"), PandasDtype.int64)] []) ("t") (by decide)).1

theorem to_sql_append_disconnected {df : PDataFrame} {db : Database} {n : String}
    (hc : db.connected = false) :
    to_sql_append df db n = Except.error ("connection lost") := by
  unfold to_sql_append
  rw [if_pos hc]

theorem to_sql_append_new {df : PDataFrame} {db : Database} {n : String}
    (hc : ¬db.connected = false) (htb : tableIdx db n = none) :
    to_sql_append df db n =
      Except.ok (Database.mk (db.tables ++ [SqlTable.mk n (mkColumns df) df.rows]) db.connected) := by
  unfold to_sql_append
  rw [if_neg hc, htb]

theorem to_sql_append_existing_ok {df : PDataFrame} {db : Database} {n : String} {i : Nat}
    (hc : ¬db.connected = false) (htb : tableIdx db n = some i)
    (hcomp : colsCompatible df (db.tables.getD i (SqlTable.mk n [] [])) = true) :
    to_sql_append df db n =
      Except.ok (Database.mk
        (db.tables.set i
          (SqlTable.mk (db.tables.getD i (SqlTable.mk n [] [])).name
            (db.tables.getD i (SqlTable.mk n [] [])).columns
            ((db.tables.getD i (SqlTable.mk n [] [])).rows ++ df.rows)))
        db.connected) := by
  unfold to_sql_append
  rw [if_neg hc, htb]
  simp only [hcomp]
  rfl

theorem to_sql_append_existing_err {df : PDataFrame} {db : Database} {n : String} {i : Nat}
    (hc : ¬db.connected = false) (htb : tableIdx db n = some i)
    (hcomp : ¬colsCompatible df (db.tables.getD i (SqlTable.mk n [] [])) = true) :
    to_sql_append df db n = Except.error ("rejected write") := by
  unfold to_sql_append
  rw [if_neg hc, htb]
  simp only [if_neg hcomp]

/-- C9: `save_dataframe_to_db` performs exactly one storage write and adds
nothing around it — its outcome IS the storage boundary's outcome (so an
`SQLAlchemyError` is re-raised to the caller, never swallowed, and there is
no retry), it fails exactly when the storage rejects the write, and on
success every pre-existing table keeps its name, columns and rows, with new
rows only ever appended after the old ones. -/
theorem C9_append_error_propagation (df : PDataFrame) (db : Database) (n : String) :
    save_dataframe_to_db df db n = to_sql_append df db n ∧
    ((∃ e, save_dataframe_to_db df db n = Except.error e) ↔ storageRejects df db n = true) ∧
    (∀ db2, save_dataframe_to_db df db n = Except.ok db2 →
      ∀ t ∈ db.tables, ∃ rs, SqlTable.mk t.name t.columns (t.rows ++ rs) ∈ db2.tables) := by
  have hsave : save_dataframe_to_db df db n = to_sql_append df db n := by
    unfold save_dataframe_to_db
    cases to_sql_append df db n <;> rfl
  refine ⟨hsave, ?_, ?_⟩
  · rw [hsave]
    by_cases hc : db.connected = false
    · rw [to_sql_append_disconnected hc]
      unfold storageRejects
      rw [hc]
      simp
    · have hct : db.connected = true := by
        revert hc
        cases db.connected <;> simp
      have hrej : storageRejects df db n =
          (match tableIdx db n with
           | none => false
           | some i => !colsCompatible df (db.tables.getD i (SqlTable.mk n [] []))) := by
        unfold storageRejects
        rw [hct]
        simp
      cases htb : tableIdx db n with
      | none =>
        rw [to_sql_append_new hc htb, hrej, htb]
        simp
      | some i =>
        by_cases hcomp : colsCompatible df (db.tables.getD i (SqlTable.mk n [] [])) = true
        · rw [to_sql_append_existing_ok hc htb hcomp, hrej, htb]
          constructor
          · intro hex
            obtain ⟨e, he⟩ := hex
            cases he
          · intro hfalse
            have hfalse2 : (!colsCompatible df (db.tables.getD i (SqlTable.mk n [] []))) = true :=
              hfalse
            rw [hcomp] at hfalse2
            exact Bool.noConfusion hfalse2
        · have hcf : colsCompatible df (db.tables.getD i (SqlTable.mk n [] [])) = false := by
            revert hcomp
            cases colsCompatible df (db.tables.getD i (SqlTable.mk n [] [])) <;> simp
          rw [to_sql_append_existing_err hc htb hcomp, hrej, htb]
          constructor
          · intro _
            show (!colsCompatible df (db.tables.getD i (SqlTable.mk n [] []))) = true
            rw [hcf]
            rfl
          · intro _
            exact ⟨"rejected write", rfl⟩
  · intro db2 hok t ht
    rw [hsave] at hok
    by_cases hc : db.connected = false
    · rw [to_sql_append_disconnected hc] at hok
      cases hok
    · cases htb : tableIdx db n with
      | none =>
        rw [to_sql_append_new hc htb] at hok
        injection hok with hdb2
        refine ⟨[], ?_⟩
        rw [← hdb2, List.append_nil]
        exact List.mem_append_left _ ht
      | some i =>
        by_cases hcomp : colsCompatible df (db.tables.getD i (SqlTable.mk n [] [])) = true
        · rw [to_sql_append_existing_ok hc htb hcomp] at hok
          injection hok with hdb2
          obtain ⟨j, hj, hgj⟩ := listMem_getD db.tables (SqlTable.mk n [] []) ht
          by_cases hji : j = i
          · subst hji
            refine ⟨df.rows, ?_⟩
            rw [← hdb2, ← hgj]
            have hm := listGetD_mem
              (db.tables.set j
                (SqlTable.mk (db.tables.getD j (SqlTable.mk n [] [])).name
                  (db.tables.getD j (SqlTable.mk n [] [])).columns
                  ((db.tables.getD j (SqlTable.mk n [] [])).rows ++ df.rows)))
              j (SqlTable.mk n [] []) (by rw [List.length_set]; exact hj)
            rw [listGetD_set_self _ j _ _ hj] at hm
            exact hm
          · refine ⟨[], ?_⟩
            rw [← hdb2, List.append_nil]
            have hm := listGetD_mem
              (db.tables.set i
                (SqlTable.mk (db.tables.getD i (SqlTable.mk n [] [])).name
                  (db.tables.getD i (SqlTable.mk n [] [])).columns
                  ((db.tables.getD i (SqlTable.mk n [] [])).rows ++ df.rows)))
              j (SqlTable.mk n [] []) (by rw [List.length_set]; exact hj)
            rw [listGetD_set_ne _ i j _ _ (fun he => hji he.symm), hgj] at hm
            exact hm
        · rw [to_sql_append_existing_err hc htb hcomp] at hok
          cases hok

/-- C9 witness: a concrete successful append keeps the existing row and adds
the new ones after it. -/
theorem C9_append_error_propagation_witness :
    ∃ rs, SqlTable.mk ("t") [SqlColumn.mk ("a") SqlColumnType.Integer true false]
        ([[Value.vInt 0]] ++ rs) ∈
      (Database.mk
        [SqlTable.mk ("t") [SqlColumn.mk ("a") SqlColumnType.Integer true false]
          [[Value.vInt 0], [Value.vInt 1]]] true).tables := by
  have h := (C9_append_error_propagation
    (PDataFrame.mk [(("a"), PandasDtype.int64)] [[Value.vInt 1]])
    (Database.mk
      [SqlTable.mk ("t") [SqlColumn.mk ("a") SqlColumnType.Integer true false]
        [[Value.vInt 0]]] true) ("t")).2.2
    (Database.mk
      [SqlTable.mk ("t") [SqlColumn.mk ("a") SqlColumnType.Integer true false]
        [[Value.vInt 0], [Value.vInt 1]]] true) (by rfl)
    (SqlTable.mk ("t") [SqlColumn.mk ("a") SqlColumnType.Integer true false] [[Value.vInt 0]])
    (by decide)
  exact h
